import Mathlib

/-!
Shallow embedding of the two core subsystems of the `url-shortener`
repository: the per-key token-bucket rate limiter
(`internal/middleware`, file `ratelimiter.go`) and the asynchronous
click-ingestion pipeline (`internal/service/click_processor.go`).

Times are modelled as `Int` nanoseconds (Go `time.Time` / `time.Duration`);
token counts of the bucket are modelled as `ℚ` (Go float64 token
arithmetic of `golang.org/x/time/rate` is exact real arithmetic here).
Go `nil` errors are `Option GoErr` with `none` for `nil`.
-/

namespace UrlShortener

/-- A Go `error` value: identified by its message. -/
structure GoErr where
  msg : String
  deriving DecidableEq

/-- Log levels of `zap` used by the two subsystems. -/
inductive LogLevel where
  | debug | info | warn | error
  deriving DecidableEq

/-! ## Rate limiter (`RateLimiter`, middleware package)

`RateLimiterConfig` from the source: `RequestsPerSecond float64`,
`BurstSize int`, `CleanupInterval time.Duration` (nanoseconds). -/

structure RateLimiterConfig where
  requestsPerSecond : ℚ
  burstSize : ℕ
  cleanupInterval : ℤ
  deriving DecidableEq

/-- `DefaultRateLimiterConfig`: 10 req/s, burst 20, cleanup every minute. -/
def DefaultRateLimiterConfig : RateLimiterConfig :=
  { requestsPerSecond := 10, burstSize := 20, cleanupInterval := 60 * 1000000000 }

/-- Modelled from the spec: the state of one `golang.org/x/time/rate.Limiter`
(that library is a dependency, not part of `src/`).  Token-bucket semantics
per the spec: capacity = burst size; refill continuously at the configured
rate; an admitted request consumes exactly one token; a request that would
take the bucket below zero tokens is rejected and consumes nothing. -/
structure LimiterState where
  limit : ℚ
  burst : ℕ
  tokens : ℚ
  lastRefill : ℤ
  deriving DecidableEq

/-- Modelled from the spec: `rate.NewLimiter(rate.Limit(r), b)` — a freshly
created bucket starts full (`tokens = burst`). -/
def newLimiter (r : ℚ) (b : ℕ) (now : ℤ) : LimiterState :=
  { limit := r, burst := b, tokens := (b : ℚ), lastRefill := now }

/-- Modelled from the spec: `Limiter.Allow()` at time `now` (ns).  Refill
continuously at `limit` tokens per second, cap at `burst`; admit iff a whole
token is available, consuming it; otherwise reject consuming nothing. -/
def LimiterState.allow (l : LimiterState) (now : ℤ) : Bool × LimiterState :=
  let t : ℚ := min (l.burst : ℚ) (l.tokens + l.limit * (((now - l.lastRefill : ℤ) : ℚ) / 1000000000))
  if 1 ≤ t then (true, { l with tokens := t - 1, lastRefill := now })
  else (false, { l with tokens := t, lastRefill := now })

/-- `n` consecutive `Allow` calls, all at the same instant `now`. -/
def allowN (l : LimiterState) (now : ℤ) : ℕ → List Bool × LimiterState
  | 0 => ([], l)
  | n + 1 =>
    let r := l.allow now
    let rest := allowN r.2 now n
    (r.1 :: rest.1, rest.2)

/-- A `visitor` map entry: the per-key limiter and the last-seen stamp. -/
structure Visitor where
  limiter : LimiterState
  lastSeen : ℤ
  deriving DecidableEq

/-- The `RateLimiter` shared state: config plus the `visitors` map,
modelled as an association list keyed by IP/API-key string. -/
structure RateLimiterState where
  config : RateLimiterConfig
  visitors : List (String × Visitor)
  deriving DecidableEq

/-- Lookup in the `visitors` map (`rl.visitors[ip]`). -/
def findVisitor (m : List (String × Visitor)) (ip : String) : Option Visitor :=
  match m with
  | [] => none
  | (k, v) :: rest => if k = ip then some v else findVisitor rest ip

/-- `v.lastSeen = time.Now()` on the entry for `ip`: in-place update of the
`lastSeen` field of that one entry, every other entry untouched. -/
def touchVisitor (m : List (String × Visitor)) (ip : String) (now : ℤ) :
    List (String × Visitor) :=
  match m with
  | [] => []
  | (k, v) :: rest =>
    if k = ip then (k, { v with lastSeen := now }) :: rest
    else (k, v) :: touchVisitor rest ip now

/-- Write back the (mutated-through-pointer) limiter of the entry for `ip`. -/
def setLimiter (m : List (String × Visitor)) (ip : String) (l : LimiterState) :
    List (String × Visitor) :=
  match m with
  | [] => []
  | (k, v) :: rest =>
    if k = ip then (k, { v with limiter := l }) :: rest
    else (k, v) :: setLimiter rest ip l

/-- `getLimiter` (ratelimiter.go 75–92): under the lock, if the key exists
refresh its `lastSeen` and return its limiter; otherwise create a limiter
from the configured rate and burst and insert a fresh entry. -/
def getLimiter (rl : RateLimiterState) (ip : String) (now : ℤ) :
    LimiterState × RateLimiterState :=
  match findVisitor rl.visitors ip with
  | some v => (v.limiter, { rl with visitors := touchVisitor rl.visitors ip now })
  | none =>
    let limiter := newLimiter rl.config.requestsPerSecond rl.config.burstSize now
    (limiter, { rl with visitors := rl.visitors ++ [(ip, { limiter := limiter, lastSeen := now })] })

/-- `cleanup` (ratelimiter.go 63–72): one sweep at time `now` deletes every
entry with `time.Since(v.lastSeen) > CleanupInterval*3` and keeps the rest. -/
def cleanup (rl : RateLimiterState) (now : ℤ) : RateLimiterState :=
  { rl with visitors :=
      rl.visitors.filter fun kv => !decide (rl.config.cleanupInterval * 3 < now - kv.2.lastSeen) }

/-- The JSON body written on rejection (ratelimiter.go 101–105 and 124–128).
`retry_after` is `int(CleanupInterval / time.Second)`: Go `int64` division,
truncating toward zero. -/
structure RejectionBody where
  errCode : String
  message : String
  retryAfterSec : ℤ
  deriving DecidableEq

def rejectionBody (cfg : RateLimiterConfig) : RejectionBody :=
  { errCode := "rate_limit_exceeded"
  , message := "Слишком много запросов, попробуйте позже"
  , retryAfterSec := Int.tdiv cfg.cleanupInterval 1000000000 }

/-- Outcome of one middleware invocation: pass the request on (`c.Next()`)
or abort with an HTTP status and a JSON body. -/
inductive MwResult where
  | next
  | reject (status : ℕ) (body : RejectionBody)
  deriving DecidableEq

/-- One invocation of the handler returned by `Middleware()`
(ratelimiter.go 95–112) for key `key` at time `now`: fetch or create the
limiter, ask `Allow()`, and on rejection answer 429 with the static body.
`MiddlewareWithKey` (115–135) runs the same steps on the extracted key. -/
def middlewareStep (rl : RateLimiterState) (key : String) (now : ℤ) :
    MwResult × RateLimiterState :=
  let r := getLimiter rl key now
  let a := r.1.allow now
  let rl2 := { r.2 with visitors := setLimiter r.2.visitors key a.2 }
  if a.1 then (MwResult.next, rl2)
  else (MwResult.reject 429 (rejectionBody rl.config), rl2)

/-! ## Click processor (`internal/service/click_processor.go`) -/

/-- `maxRetries` (click_processor.go line 17). -/
def maxRetries : ℕ := 3

/-- `defaultChannelBuffer` (click_processor.go line 16). -/
def defaultChannelBuffer : ℕ := 1000

/-- `models.ClickEvent` (config.go 113–119). -/
structure ClickEvent where
  shortCode : String
  ipAddress : String
  userAgent : String
  referer : String
  country : String
  deriving DecidableEq

/-- One observable step of `processClick`: a `clickRepo.RecordClick` attempt,
a `time.Sleep`, or a log record.  Log steps carry the short code and the
value of the `err` variable passed to `zap.Error` at that call site. -/
inductive Step where
  | call (i : ℕ)
  | sleepMs (d : ℕ)
  | logDebug (sc : String) (attempt : ℕ) (e : Option GoErr)
  | logError (sc : String) (e : Option GoErr)
  | logWarn (sc : String) (e : Option GoErr)
  deriving DecidableEq

/-- The retry loop of `processClick` (click_processor.go 123–141), as the
trace of steps it emits.  `attempt i` is the error returned by the `i`-th
`clickRepo.RecordClick` call (`none` = nil = success).  Arguments: `i` is
the loop counter, `fuel = maxRetries - i` the remaining iterations.

The `err` in `zap.Error(err)` at lines 132 and 140 is NOT the error of the
`RecordClick` call: that error (line 124, `if err := ...`) is scoped to its
`if` statement alone, so both log sites see the outer `err` of line 103,
which is `nil` once the lookup guard at 104–110 has been passed.  The loop
sleeps `(i+1) * 100ms` only when `i < maxRetries-1`, i.e. when `fuel > 1`
entering iteration `i`. -/
def retryTraceAux (attempt : ℕ → Option GoErr) (sc : String) : ℕ → ℕ → List Step
  | _, 0 => [Step.logError sc none]
  | i, fuel + 1 =>
    Step.call i ::
      (match attempt i with
       | none => []
       | some _ =>
         (if fuel = 0 then [] else [Step.logDebug sc (i + 1) none, Step.sleepMs ((i + 1) * 100)])
           ++ retryTraceAux attempt sc (i + 1) fuel)

/-- `processClick` (click_processor.go 98–142) as a step trace.  `lookup` is
the result of `linkRepo.GetLinkIDByShortCode`: on error, one warning log
carrying that error and no persistence attempt; on success, the retry loop. -/
def processClickTrace (ev : ClickEvent) (lookup : Except GoErr ℤ)
    (attempt : ℕ → Option GoErr) : List Step :=
  match lookup with
  | Except.error e => [Step.logWarn ev.shortCode (some e)]
  | Except.ok _ => retryTraceAux attempt ev.shortCode 0 maxRetries

/-- Indices of the `RecordClick` calls appearing in a trace, in order. -/
def callIndices (tr : List Step) : List ℕ :=
  tr.filterMap fun s => match s with | Step.call i => some i | _ => none

/-- Number of `RecordClick` calls in a trace that succeed under `attempt`. -/
def succCount (attempt : ℕ → Option GoErr) (tr : List Step) : ℕ :=
  tr.countP fun s => match s with | Step.call i => (attempt i).isNone | _ => false

/-- Sleep durations (ms) of a trace, in order. -/
def sleepsMs (tr : List Step) : List ℕ :=
  tr.filterMap fun s => match s with | Step.sleepMs d => some d | _ => none

/-- Error-level log records of a trace. -/
def errorLogs (tr : List Step) : List Step :=
  tr.filter fun s => match s with | Step.logError _ _ => true | _ => false

/-- `processClick` opens its context with
`context.WithTimeout(p.ctx, 5*time.Second)` (click_processor.go line 99):
the per-event timeout in nanoseconds; `none` would mean no such timeout. -/
def processClickTimeout : Option ℤ := some (5 * 1000000000)

/-- The error `ctx.Err()` returns once the caller's context is done. -/
def ctxDoneErr : GoErr := { msg := "context canceled" }

/-- `RecordClick` (click_processor.go 145–158), the submit path.  Returns
(returned error, new queue contents, emitted log records as `Step`s).

`ctxDone` is whether the caller's request context is done; `stopped` is
whether `Stop` (69–74) has completed, i.e. `p.cancel()` was called and the
workers joined.  The source's `select` consults only the caller's `ctx` and
the buffered channel — never `p.ctx`, and the channel is never closed — so
`stopped` does not influence the result.  When several `select` cases are
ready Go picks one at random; this model gives the `ctx.Done()` case
priority, and the theorems below only constrain states where at most one
case is ready, so the determinization is immaterial there. -/
def recordClick (ctxDone stopped : Bool) (queue : List ClickEvent) (cap : ℕ)
    (ev : ClickEvent) : Option GoErr × List ClickEvent × List Step :=
  if ctxDone then (some ctxDoneErr, queue, [])
  else if queue.length < cap then (none, queue ++ [ev], [])
  else (none, queue, [Step.logWarn ev.shortCode none])

/-! ## Helper lemmas: token bucket at a single instant -/

lemma allow_same_instant (l : LimiterState) (now : ℤ) (hl : l.lastRefill = now)
    (hb : l.tokens ≤ (l.burst : ℚ)) :
    l.allow now = if 1 ≤ l.tokens then (true, { l with tokens := l.tokens - 1 })
      else (false, l) := by
  obtain ⟨L, Br, T, LR⟩ := l
  simp only at hb ⊢
  subst hl
  unfold LimiterState.allow
  by_cases h1 : 1 ≤ T <;> simp [min_eq_right hb, h1]

lemma allowN_drain (R : ℚ) (B : ℕ) (now : ℤ) (k : ℕ) :
    ∀ t : ℚ, (k : ℚ) ≤ t → t ≤ (B : ℚ) →
      allowN { limit := R, burst := B, tokens := t, lastRefill := now } now k
        = (List.replicate k true,
           { limit := R, burst := B, tokens := t - k, lastRefill := now }) := by
  induction k with
  | zero => intro t _ _; simp [allowN]
  | succ k ih =>
    intro t hk hB
    have hk1 : (k : ℚ) + 1 ≤ t := by push_cast at hk; linarith
    have h1 : (1 : ℚ) ≤ t := by
      have hnn : (0 : ℚ) ≤ (k : ℚ) := Nat.cast_nonneg k
      linarith
    have hstep := allow_same_instant
        { limit := R, burst := B, tokens := t, lastRefill := now } now rfl hB
    rw [if_pos h1] at hstep
    simp only at hstep
    have hrest := ih (t - 1) (by linarith) (by linarith)
    simp only [allowN, hstep, hrest, Prod.mk.injEq]
    refine ⟨by simp [List.replicate_succ], ?_⟩
    congr 1
    push_cast
    ring

/-- Claim C1: a freshly created bucket with burst `B` admits `B` checks
issued at one instant, the `k`-th of them leaving exactly `B - k` tokens
(each admitted check consumes exactly one token); the `(B+1)`-th check at
the same instant is rejected and leaves the token count unchanged
(consumes nothing). -/
theorem tokenBucket_burst (R : ℚ) (B k : ℕ) (now : ℤ) (hk : k ≤ B) :
    (allowN (newLimiter R B now) now B).1 = List.replicate B true ∧
    (allowN (newLimiter R B now) now k).2.tokens = (B : ℚ) - k ∧
    ((allowN (newLimiter R B now) now B).2.allow now).1 = false ∧
    ((allowN (newLimiter R B now) now B).2.allow now).2.tokens
      = (allowN (newLimiter R B now) now B).2.tokens := by
  have hdB := allowN_drain R B now B (B : ℚ) le_rfl le_rfl
  have hdk := allowN_drain R B now k (B : ℚ) (by exact_mod_cast hk) le_rfl
  have hno : ¬ (1 : ℚ) ≤ (B : ℚ) - B := by simp
  have hfin := allow_same_instant
      { limit := R, burst := B, tokens := (B : ℚ) - B, lastRefill := now } now rfl (by simp)
  rw [if_neg hno] at hfin
  simp only [sub_self] at hfin
  refine ⟨?_, ?_, ?_, ?_⟩
  · simp [newLimiter, hdB]
  · simp [newLimiter, hdk]
  · simp [newLimiter, hdB, hfin]
  · simp [newLimiter, hdB, hfin]

/-- Witness for C1 at the configured defaults: rate 10/s, burst 20,
all 20 instantaneous checks admitted, the 21st rejected. -/
theorem tokenBucket_burst_witness :
    (20 : ℕ) ≤ 20 ∧
    (allowN (newLimiter 10 20 0) 0 20).1 = List.replicate 20 true ∧
    (allowN (newLimiter 10 20 0) 0 20).2.tokens = 0 ∧
    ((allowN (newLimiter 10 20 0) 0 20).2.allow 0).1 = false := by
  have h := tokenBucket_burst 10 20 20 0 (by decide)
  refine ⟨by decide, h.1, ?_, h.2.2.1⟩
  rw [h.2.1]
  norm_num

/-- Claim C5: one cleanup pass at time `now` keeps exactly the entries
whose `lastSeen` is within `3 × cleanupInterval` of `now`; an entry is
removed iff it is strictly older.  Hence immediately after a pass every
key still present was seen within that window. -/
theorem cleanup_mem_iff (rl : RateLimiterState) (now : ℤ) (k : String) (v : Visitor) :
    (k, v) ∈ (cleanup rl now).visitors ↔
      ((k, v) ∈ rl.visitors ∧ now - v.lastSeen ≤ rl.config.cleanupInterval * 3) := by
  simp [cleanup, List.mem_filter, not_lt]

/-- Claim C6: every rejection carries HTTP 429 and a body whose
`retry_after` is the cleanup interval in whole seconds
(`int(CleanupInterval / time.Second)`, truncating division); the body is a
function of `cleanupInterval` alone — any config with the same cleanup
interval, whatever its rate and burst, and whatever the bucket's token
state, yields the identical body. -/
theorem mw_reject_static (rl : RateLimiterState) (key : String) (now : ℤ)
    (st : ℕ) (body : RejectionBody) (cfg2 : RateLimiterConfig)
    (h : (middlewareStep rl key now).1 = MwResult.reject st body)
    (h2 : cfg2.cleanupInterval = rl.config.cleanupInterval) :
    st = 429 ∧ body.errCode = "rate_limit_exceeded" ∧
    body.retryAfterSec = Int.tdiv rl.config.cleanupInterval 1000000000 ∧
    rejectionBody cfg2 = body := by
  unfold middlewareStep at h
  by_cases ha : ((getLimiter rl key now).1.allow now).1
  · simp [ha] at h
  · simp [ha] at h
    obtain ⟨hst, hbody⟩ := h
    subst hst
    subst hbody
    exact ⟨rfl, rfl, rfl, by simp [rejectionBody, h2]⟩

/-- A config with burst 0 whose very first check rejects. -/
def cfgBurst0 : RateLimiterConfig :=
  { requestsPerSecond := 10, burstSize := 0, cleanupInterval := 60 * 1000000000 }

/-- A config with the same cleanup interval but different rate and burst. -/
def cfgOther : RateLimiterConfig :=
  { requestsPerSecond := 500, burstSize := 999, cleanupInterval := 60 * 1000000000 }

/-- Witness for C6: a rejected check against `cfgBurst0` answers
`retry_after = 60` (one minute in seconds), and `cfgOther` — same interval,
different rate/burst — produces the identical body. -/
theorem mw_reject_static_witness :
    (rejectionBody cfgBurst0).retryAfterSec = 60 ∧
    rejectionBody cfgOther = rejectionBody cfgBurst0 := by
  have h := mw_reject_static { config := cfgBurst0, visitors := [] } "k" 0 429
      (rejectionBody cfgBurst0) cfgOther
      (by norm_num [middlewareStep, getLimiter, findVisitor, LimiterState.allow,
            newLimiter, cfgBurst0])
      (by decide)
  exact ⟨by rw [h.2.2.1]; decide, h.2.2.2⟩

/-! ## Helper lemmas: visitor map frame conditions -/

lemma findVisitor_touch_self (m : List (String × Visitor)) (ip : String) (now : ℤ) :
    findVisitor (touchVisitor m ip now) ip
      = (findVisitor m ip).map fun v => { v with lastSeen := now } := by
  induction m with
  | nil => simp [findVisitor, touchVisitor]
  | cons kv rest ih =>
    obtain ⟨k, v⟩ := kv
    by_cases hk : k = ip <;> simp [findVisitor, touchVisitor, hk, ih]

lemma findVisitor_touch_other (m : List (String × Visitor)) (ip k0 : String) (now : ℤ)
    (hk : k0 ≠ ip) :
    findVisitor (touchVisitor m ip now) k0 = findVisitor m k0 := by
  induction m with
  | nil => simp [touchVisitor]
  | cons kv rest ih =>
    obtain ⟨k, v⟩ := kv
    by_cases h1 : k = ip
    · subst h1
      have hne : k ≠ k0 := fun hh => hk hh.symm
      simp [findVisitor, touchVisitor, hne]
    · by_cases h2 : k = k0
      · subst h2
        simp [findVisitor, touchVisitor, h1]
      · simp [findVisitor, touchVisitor, h1, h2, ih]

/-- Claim C10: an admission lookup for a key already in the map returns
that entry's limiter object unchanged, rewrites only its `lastSeen` to
`now` (the limiter field of the stored entry is the same object), and
leaves the entry of every other key exactly as it was; a fresh limiter is
built only in the absent-key branch. -/
theorem getLimiter_existing (rl : RateLimiterState) (ip k0 : String) (now : ℤ)
    (v : Visitor) (hv : findVisitor rl.visitors ip = some v) (hk : k0 ≠ ip) :
    (getLimiter rl ip now).1 = v.limiter ∧
    findVisitor (getLimiter rl ip now).2.visitors ip
      = some { limiter := v.limiter, lastSeen := now } ∧
    findVisitor (getLimiter rl ip now).2.visitors k0 = findVisitor rl.visitors k0 := by
  unfold getLimiter
  rw [hv]
  refine ⟨rfl, ?_, ?_⟩
  · simp [findVisitor_touch_self, hv]
  · simp [findVisitor_touch_other _ _ _ _ hk]

/-- Two distinct keys, both present. -/
def visA : Visitor := { limiter := newLimiter 10 20 0, lastSeen := 5 }

def visB : Visitor := { limiter := newLimiter 10 20 0, lastSeen := 7 }

def rlAB : RateLimiterState :=
  { config := DefaultRateLimiterConfig, visitors := [("a", visA), ("b", visB)] }

/-- Witness for C10 on a two-entry map: looking up "a" returns its stored
limiter, stamps its `lastSeen`, and leaves "b" untouched. -/
theorem getLimiter_existing_witness :
    (getLimiter rlAB "a" 9).1 = visA.limiter ∧
    findVisitor (getLimiter rlAB "a" 9).2.visitors "a"
      = some { limiter := visA.limiter, lastSeen := 9 } ∧
    findVisitor (getLimiter rlAB "a" 9).2.visitors "b" = findVisitor rlAB.visitors "b" :=
  getLimiter_existing rlAB "a" "b" 9 visA rfl (by decide)

/-- Claim C2: with the link resolved, a run whose first `maxRetries - 1`
persistence attempts fail and whose last succeeds performs exactly
`maxRetries` (= 3) attempts, waits `(i+1) × 100ms` after failed attempt
`i` (none before the first attempt) and records no discard; a run whose
attempts all fail performs exactly `maxRetries` attempts with the same
waits, no wait after the final attempt, and exactly one error-level
discard record.  The traces are stated in full, so the attempt/wait
interleaving is exact. -/
theorem processClick_retry_backoff (sc ip ua rf co : String) (linkID : ℤ)
    (att1 att2 : ℕ → Option GoErr)
    (h0 : att1 0 ≠ none) (h1 : att1 1 ≠ none) (h2 : att1 2 = none)
    (hf : ∀ i, att2 i ≠ none) :
    processClickTrace ⟨sc, ip, ua, rf, co⟩ (Except.ok linkID) att1
      = [Step.call 0, Step.logDebug sc 1 none, Step.sleepMs 100,
         Step.call 1, Step.logDebug sc 2 none, Step.sleepMs 200,
         Step.call 2] ∧
    processClickTrace ⟨sc, ip, ua, rf, co⟩ (Except.ok linkID) att2
      = [Step.call 0, Step.logDebug sc 1 none, Step.sleepMs 100,
         Step.call 1, Step.logDebug sc 2 none, Step.sleepMs 200,
         Step.call 2, Step.logError sc none] ∧
    sleepsMs (processClickTrace ⟨sc, ip, ua, rf, co⟩ (Except.ok linkID) att2) = [100, 200] ∧
    errorLogs (processClickTrace ⟨sc, ip, ua, rf, co⟩ (Except.ok linkID) att1) = [] ∧
    errorLogs (processClickTrace ⟨sc, ip, ua, rf, co⟩ (Except.ok linkID) att2)
      = [Step.logError sc none] := by
  obtain ⟨g0, hg0⟩ := Option.ne_none_iff_exists'.mp h0
  obtain ⟨g1, hg1⟩ := Option.ne_none_iff_exists'.mp h1
  obtain ⟨f0, hf0⟩ := Option.ne_none_iff_exists'.mp (hf 0)
  obtain ⟨f1, hf1⟩ := Option.ne_none_iff_exists'.mp (hf 1)
  obtain ⟨f2, hf2⟩ := Option.ne_none_iff_exists'.mp (hf 2)
  refine ⟨?_, ?_, ?_, ?_, ?_⟩ <;>
    simp [processClickTrace, maxRetries, retryTraceAux, hg0, hg1, h2, hf0, hf1, hf2,
      sleepsMs, errorLogs]

/-- Fails twice, succeeds on the third (last) attempt. -/
def attOnceOk : ℕ → Option GoErr := fun i => if i = 2 then none else some { msg := "tx failed" }

/-- Every attempt fails. -/
def attAlwaysFail : ℕ → Option GoErr := fun _ => some { msg := "tx failed" }

/-- Witness for C2: under the always-failing attempts there are exactly
three `RecordClick` calls and the waits are 100ms then 200ms; under the
succeeds-last attempts there is no error-level discard record. -/
theorem processClick_retry_backoff_witness :
    callIndices (processClickTrace ⟨"w2", "i", "u", "r", "c"⟩ (Except.ok 7) attAlwaysFail)
      = [0, 1, 2] ∧
    sleepsMs (processClickTrace ⟨"w2", "i", "u", "r", "c"⟩ (Except.ok 7) attAlwaysFail)
      = [100, 200] ∧
    errorLogs (processClickTrace ⟨"w2", "i", "u", "r", "c"⟩ (Except.ok 7) attOnceOk) = [] := by
  have h := processClick_retry_backoff "w2" "i" "u" "r" "c" 7 attOnceOk attAlwaysFail
    (by decide) (by decide) (by decide) (by intro i; simp [attAlwaysFail])
  refine ⟨?_, h.2.2.1, h.2.2.2.1⟩
  rw [h.2.1]
  decide

/-- Claim C3: with the caller's context live, a submit against a full
queue leaves the queue unchanged, returns `nil`, and emits exactly one
warning record naming the short code; a submit with a free slot appends
the event and returns `nil` with no log record. -/
theorem recordClick_full_vs_free (stopped : Bool) (q1 q2 : List ClickEvent) (cap : ℕ)
    (ev : ClickEvent) (hfull : cap ≤ q1.length) (hfree : q2.length < cap) :
    recordClick false stopped q1 cap ev = (none, q1, [Step.logWarn ev.shortCode none]) ∧
    recordClick false stopped q2 cap ev = (none, q2 ++ [ev], []) := by
  constructor
  · simp [recordClick, Nat.not_lt.mpr hfull]
  · simp [recordClick, hfree]

/-- A sample click event. -/
def evW : ClickEvent := ⟨"w3", "198.51.100.2", "ua", "", "DE"⟩

/-- Witness for C3 with capacity 2: a full queue drops with one warning
and returns `nil`; an empty queue enqueues and returns `nil`. -/
theorem recordClick_full_vs_free_witness :
    recordClick false false [evW, evW] 2 evW = (none, [evW, evW], [Step.logWarn "w3" none]) ∧
    recordClick false false [] 2 evW = (none, [evW], []) := by
  have h := recordClick_full_vs_free false [evW, evW] [] 2 evW (by decide) (by decide)
  simpa [evW] using h

/-- A sample click event submitted after shutdown. -/
def evC4 : ClickEvent := ⟨"c4", "192.0.2.1", "ua", "", "FR"⟩

/-- Claim C4 counterexample: after `Stop` has completed (`stopped = true`)
a submit with a live caller context and room in the queue returns `nil` —
a success, not any failure signal — and even enqueues the event into a
channel no worker drains.  The source's `select` never consults `p.ctx`
and the channel is never closed, so no pipeline-closed condition exists. -/
theorem recordClick_after_stop_returns_nil :
    (recordClick false true [] defaultChannelBuffer evC4).1 = none ∧
    (recordClick false true [] defaultChannelBuffer evC4).2.1 = [evC4] := by
  constructor <;> simp [recordClick, defaultChannelBuffer]

/-- Claim C4 as amended: `RecordClick` does not detect shutdown.  With a
live caller context it returns `nil` whatever the shutdown flag and queue
state; the only failure it ever returns is the caller's own context error;
and its result is entirely independent of whether `Stop` has run. -/
theorem recordClick_no_closed_signal (c stopped : Bool) (q : List ClickEvent) (cap : ℕ)
    (ev : ClickEvent) :
    (recordClick false stopped q cap ev).1 = none ∧
    (recordClick true stopped q cap ev).1 = some ctxDoneErr ∧
    recordClick c stopped q cap ev = recordClick c false q cap ev := by
  refine ⟨?_, by simp [recordClick], rfl⟩
  by_cases h : q.length < cap <;> simp [recordClick, h]

/-- The failing input of C7. -/
def evC7 : ClickEvent := ⟨"abc", "203.0.113.7", "ua", "", "NL"⟩

/-- Its attempts: persistence always fails with "db down". -/
def attC7 : ℕ → Option GoErr := fun _ => some { msg := "db down" }

/-- Claim C7, evaluated at the failing input: when every persistence
attempt fails with "db down", the worker does emit exactly one error-level
record naming the short code, but the record's error field is `none`
(Go `nil`): the `err` passed to `zap.Error` at line 140 is the outer `err`
of line 103 — guaranteed `nil` past the lookup guard — because the
`RecordClick` error at line 124 is scoped to its own `if`.  The last
persistence error never appears in the trace. -/
theorem processClick_final_log_carries_nil_error :
    errorLogs (processClickTrace evC7 (Except.ok 1) attC7) = [Step.logError "abc" none] ∧
    Step.logError "abc" (some { msg := "db down" })
      ∉ processClickTrace evC7 (Except.ok 1) attC7 := by
  decide

/-- Claim C8 counterexample: `processClick` does impose a per-event
timeout — `context.WithTimeout(p.ctx, 5*time.Second)` at line 99 — so the
claim that no per-event timeout distinct from the retry budget exists is
false of the code. -/
theorem processClick_timeout_exists : processClickTimeout ≠ none := by
  simp [processClickTimeout]

/-- Claim C8 as amended: processing of one event is bounded by the retry
count, the backoff schedule, the pool's cancellation signal, and in
addition a per-event context timeout of exactly 5 seconds. -/
theorem processClick_timeout_is_five_seconds :
    processClickTimeout = some (5 * 1000000000) := rfl

/-! ## Helper lemmas: call indices of the retry loop -/

lemma callIndices_retryAux_zero (att : ℕ → Option GoErr) (sc : String) (i : ℕ) :
    callIndices (retryTraceAux att sc i 0) = [] := by
  simp [retryTraceAux, callIndices]

lemma callIndices_retryAux_succ (att : ℕ → Option GoErr) (sc : String) (i fuel : ℕ) :
    callIndices (retryTraceAux att sc i (fuel + 1))
      = match att i with
        | none => [i]
        | some _ => i :: callIndices (retryTraceAux att sc (i + 1) fuel) := by
  cases hatt : att i with
  | none => simp [retryTraceAux, hatt, callIndices]
  | some g =>
    by_cases hfz : fuel = 0 <;>
      simp [retryTraceAux, hatt, callIndices, hfz, List.filterMap_append]

lemma succCount_retryAux_zero (att : ℕ → Option GoErr) (sc : String) (i : ℕ) :
    succCount att (retryTraceAux att sc i 0) = 0 := by
  simp [retryTraceAux, succCount]

lemma succCount_retryAux_succ (att : ℕ → Option GoErr) (sc : String) (i fuel : ℕ) :
    succCount att (retryTraceAux att sc i (fuel + 1))
      = match att i with
        | none => 1
        | some _ => succCount att (retryTraceAux att sc (i + 1) fuel) := by
  cases hatt : att i with
  | none => simp [retryTraceAux, hatt, succCount]
  | some g =>
    by_cases hfz : fuel = 0 <;>
      simp [retryTraceAux, hatt, succCount, hfz, List.countP_append, List.countP_cons]

lemma succCount_retryAux_le_one (att : ℕ → Option GoErr) (sc : String) :
    ∀ (fuel i : ℕ), succCount att (retryTraceAux att sc i fuel) ≤ 1 := by
  intro fuel
  induction fuel with
  | zero => intro i; simp [succCount_retryAux_zero]
  | succ fuel ih =>
    intro i
    rw [succCount_retryAux_succ]
    cases hatt : att i with
    | none => simp
    | some g => simpa using ih (i + 1)

lemma callIndices_aux_ge (att : ℕ → Option GoErr) (sc : String) :
    ∀ (fuel i j : ℕ), j ∈ callIndices (retryTraceAux att sc i fuel) → i ≤ j := by
  intro fuel
  induction fuel with
  | zero => intro i j hj; rw [callIndices_retryAux_zero] at hj; simp at hj
  | succ fuel ih =>
    intro i j hj
    rw [callIndices_retryAux_succ] at hj
    cases hatt : att i with
    | none => rw [hatt] at hj; simp at hj; omega
    | some g =>
      rw [hatt] at hj
      simp at hj
      rcases hj with rfl | hj
      · omega
      · have := ih (i + 1) j hj
        omega

lemma callIndices_aux_range (att : ℕ → Option GoErr) (sc : String) :
    ∀ (fuel i j : ℕ), att j = none →
      j ∈ callIndices (retryTraceAux att sc i fuel) →
      callIndices (retryTraceAux att sc i fuel) = List.range' i (j + 1 - i) := by
  intro fuel
  induction fuel with
  | zero => intro i j _ hj; rw [callIndices_retryAux_zero] at hj; simp at hj
  | succ fuel ih =>
    intro i j hja hj
    rw [callIndices_retryAux_succ] at hj ⊢
    cases hatt : att i with
    | none =>
      rw [hatt] at hj
      have hji : j = i := by simpa using hj
      subst hji
      show [j] = List.range' j (j + 1 - j)
      have h1 : j + 1 - j = 1 := by omega
      rw [h1]
      rfl
    | some g =>
      rw [hatt] at hj
      rcases List.mem_cons.mp hj with rfl | hj3
      · rw [hja] at hatt; cases hatt
      · have hge := callIndices_aux_ge att sc fuel (i + 1) j hj3
        have hr := ih (i + 1) j hja hj3
        show i :: callIndices (retryTraceAux att sc (i + 1) fuel) = List.range' i (j + 1 - i)
        rw [hr]
        have h1 : j + 1 - i = (j + 1 - (i + 1)) + 1 := by omega
        rw [h1, List.range'_succ]

/-- Claim C9: in one `processClick` run, `RecordClick` succeeds at most
once — the retry loop makes no attempt after the first success: if the
attempt with index `j` succeeds and was made, the calls made are exactly
attempts `0 … j`. -/
theorem processClick_no_double_persist (sc ip ua rf co : String) (linkID : ℤ)
    (att : ℕ → Option GoErr) (j : ℕ) (hj : att j = none)
    (hmem : j ∈ callIndices (processClickTrace ⟨sc, ip, ua, rf, co⟩ (Except.ok linkID) att)) :
    succCount att (processClickTrace ⟨sc, ip, ua, rf, co⟩ (Except.ok linkID) att) ≤ 1 ∧
    callIndices (processClickTrace ⟨sc, ip, ua, rf, co⟩ (Except.ok linkID) att)
      = List.range (j + 1) := by
  have h1 := succCount_retryAux_le_one att sc maxRetries 0
  have h2 := callIndices_aux_range att sc maxRetries 0 j hj
      (by simpa [processClickTrace] using hmem)
  constructor
  · simpa [processClickTrace] using h1
  · rw [List.range_eq_range']
    simpa [processClickTrace] using h2

/-- Fails once, then succeeds on the second attempt. -/
def attC9 : ℕ → Option GoErr := fun i => if i = 1 then none else some { msg := "conn reset" }

/-- Witness for C9: with success on attempt 1, the calls made are exactly
attempts 0 and 1, and at most one call succeeded. -/
theorem processClick_no_double_persist_witness :
    succCount attC9 (processClickTrace ⟨"w9", "i", "u", "r", "c"⟩ (Except.ok 3) attC9) ≤ 1 ∧
    callIndices (processClickTrace ⟨"w9", "i", "u", "r", "c"⟩ (Except.ok 3) attC9)
      = List.range 2 :=
  processClick_no_double_persist "w9" "i" "u" "r" "c" 3 attC9 1 (by decide) (by decide)

end UrlShortener
